import Mathlib

/-!
Shallow embedding of the qtest client's protocol engine (Rust crate `qtest`):
the response/IRQ line parsers (`src/lib.rs`), the demultiplexer
(`Reader::read` in `src/parser.rs`), the frame reader
(`Socket::reader` in `src/socket.rs`), the request formatters and
decoders of the command engine (`src/parser.rs`), and the transport
send/bind logic (`src/socket/tcp.rs`, `src/socket/unix.rs`).

Strings are modelled with Lean `String` / `List Char`; each character of a
frame stands for one byte of the wire (the protocol traffic is ASCII).
Machine integers are `Nat` with explicit range checks where the Rust
parse functions fail on overflow (usize and the read widths are taken at
their 64-bit-host sizes).
-/

namespace QTest

/-- Whitespace test used by Rust `str::split_whitespace` / `char::is_whitespace`,
restricted to the ASCII whitespace that can occur in protocol traffic.
Note that the NUL character `'\x00'` is NOT whitespace. -/
def isWs (c : Char) : Bool :=
  c = ' ' || c = '\t' || c = '\n' || c = '\r' || c = '\x0b' || c = '\x0c'

/-- Helper for `splitWhitespace`: walks the characters, `acc` holds the
current token reversed. -/
def splitWsAux : List Char → List Char → List String
  | [], [] => []
  | [], acc => [String.mk acc.reverse]
  | c :: cs, acc =>
    if isWs c then
      match acc with
      | [] => splitWsAux cs []
      | _ => String.mk acc.reverse :: splitWsAux cs []
    else splitWsAux cs (c :: acc)

/-- Rust `str::split_whitespace`: the whitespace-separated tokens of `s`,
with no empty tokens. -/
def splitWhitespace (s : String) : List String :=
  splitWsAux s.data []

/-- QTest Response enum (`src/lib.rs`). -/
inductive Response where
  | Ok : Response
  | OkVal : String → Response
  | Err : String → Response
deriving DecidableEq, Repr

/-- Embedding of `impl From<&str> for Response` (`src/lib.rs`): the first
`split_whitespace` token must be `OK`, otherwise the whole line is `Err`;
with no further tokens the result is `Ok`; otherwise the remaining tokens
are rejoined with single spaces into `OkVal`. (`from` is a Lean keyword,
hence the name `fromStr`.) -/
def Response.fromStr (s : String) : Response :=
  let parts := splitWhitespace s
  if parts.head? ≠ some "OK" then Response.Err s
  else
    match parts.tail with
    | [] => Response.Ok
    | val :: more => Response.OkVal (String.intercalate " " (val :: more))

/-- Enum for the state of an IRQ event (`src/lib.rs`). -/
inductive IrqState where
  | Raise : IrqState
  | Lower : IrqState
deriving DecidableEq, Repr

/-- Struct for IRQ events (`src/lib.rs`): `line: usize`, `state: IrqState`. -/
structure Irq where
  line : Nat
  state : IrqState
deriving DecidableEq, Repr

/-- `Irq::new` (`src/lib.rs`). -/
def Irq.new (line : Nat) (state : IrqState) : Irq := ⟨line, state⟩

/-- Digits-to-Nat reading for a nonempty all-ASCII-digit character list. -/
def digitsToNat? : List Char → Option Nat
  | [] => none
  | cs =>
    if cs.all Char.isDigit then
      some (cs.foldl (fun n c => n * 10 + (c.toNat - 48)) 0)
    else none

/-- Embedding of Rust `str::parse::<usize>()`: an optional leading `'+'`,
then one or more ASCII digits, failing on values that overflow the
64-bit `usize` of the host. A leading `'-'` or any other character fails. -/
def parseUsize (s : String) : Option Nat :=
  let cs := match s.data with
    | '+' :: rest => rest
    | cs => cs
  match digitsToNat? cs with
  | some n => if n < 2 ^ 64 then some n else none
  | none => none

/-- Tail of `impl TryFrom<&str> for Irq` after the IRQ type was recognised:
the next token must parse as a usize line number (`"Invalid IRQ line"`
otherwise), and no token may follow (`"Invalid IRQ string"` otherwise). -/
def Irq.fromLineTokens (rest : List String) (ty : IrqState) : Except String Irq :=
  match rest with
  | [] => Except.error "Invalid IRQ line"
  | t :: rest2 =>
    match parseUsize t with
    | none => Except.error "Invalid IRQ line"
    | some line =>
      match rest2 with
      | [] => Except.ok (Irq.new line ty)
      | _ :: _ => Except.error "Invalid IRQ string"

/-- Token-level body of `impl TryFrom<&str> for Irq` (`src/lib.rs`): the
successive `s_parts.next()` calls of the Rust code walk exactly the
`split_whitespace` token list, `head?`/`tail` standing for one `next()`. -/
def Irq.fromTokens (parts : List String) : Except String Irq :=
  if parts.head? ≠ some "IRQ" then Except.error "Invalid IRQ string"
  else
    match parts.tail with
    | [] => Except.error "Invalid IRQ type"
    | t1 :: rest1 =>
      if t1 = "raise" then Irq.fromLineTokens rest1 IrqState.Raise
      else if t1 = "lower" then Irq.fromLineTokens rest1 IrqState.Lower
      else Except.error "Invalid IRQ type"

/-- Embedding of `impl TryFrom<&str> for Irq` (`src/lib.rs`). -/
def Irq.tryFrom (s : String) : Except String Irq :=
  Irq.fromTokens (splitWhitespace s)

/-- Whether the line parses as an IRQ event. -/
def Irq.parses (l : String) : Bool :=
  (Irq.tryFrom l).toOption.isSome

/-! ## Demultiplexer (`Reader::read`, `src/parser.rs`) -/

/-- The NUL character, `char::from(0)` in the Rust source. -/
def nulChar : Char := Char.ofNat 0

/-- Embedding of `raw_data.trim_matches(char::from(0))`: strips leading and
trailing NUL characters only; interior NULs are kept. -/
def trimNulChars (s : String) : String :=
  String.mk (((s.data.dropWhile (· = nulChar)).reverse.dropWhile (· = nulChar)).reverse)

/-- Split a character list on `'\n'`, keeping empty segments. -/
def splitOnNl : List Char → List (List Char)
  | [] => [[]]
  | c :: cs =>
    if c = '\n' then [] :: splitOnNl cs
    else
      match splitOnNl cs with
      | [] => [[c]]
      | l :: ls => (c :: l) :: ls

/-- Strip one trailing `'\r'`. `rustLines` applies this ONLY to segments
that were terminated by a stripped `'\n'` — never to a final unterminated
segment. -/
def stripTrailingCr (l : List Char) : List Char :=
  match l.getLast? with
  | some c => if c = '\r' then l.dropLast else l
  | none => l

/-- Turn the `'\n'`-split segments into the lines Rust `str::lines`
returns (Rust ≥ 1.75 semantics): every segment but the last was terminated
by a `'\n'`, and loses one `'\r'` immediately before that `'\n'`; the
final segment is unterminated and is kept verbatim — a bare trailing
`'\r'` included — unless it is empty (a trailing terminator produces no
extra line). -/
def rustLinesSegs : List (List Char) → List String
  | [] => []
  | [l] => if l.isEmpty then [] else [String.mk l]
  | l :: ls => String.mk (stripTrailingCr l) :: rustLinesSegs ls

/-- Embedding of Rust `str::lines` (Rust ≥ 1.75): split on `'\n'` and
post-process the segments per `rustLinesSegs`. In particular
`rustLines "OK\n\r" = ["OK", "\r"]`: the trailing carriage return is
included in the last line, since `'\r'` is stripped only together with a
following `'\n'`. -/
def rustLines (s : String) : List String :=
  rustLinesSegs (splitOnNl s.data)

/-- One iteration of the line loop in `Reader::read` (`src/parser.rs`):
empty lines are skipped; a line parsing as an IRQ appends one `Irq` event;
any other line appends one `Response` obtained by re-parsing the whole
trimmed block `s` (the Rust code calls `Response::from(string_data.as_str())`,
not `Response::from(line)`). -/
def demuxStep (s : String) (acc : List Irq × List Response) (line : String) :
    List Irq × List Response :=
  if line = "" then acc
  else
    match Irq.tryFrom line with
    | Except.ok irq => (acc.1 ++ [irq], acc.2)
    | Except.error _ => (acc.1, acc.2 ++ [Response.fromStr s])

/-- Embedding of the body of `Reader::read` for one received block
(`src/parser.rs`): NUL-trim the raw data, split into lines, and run the
per-line demultiplexing loop. Returns the sequences sent to the IRQ and
Response channels. -/
def Reader.processBlock (raw : String) : List Irq × List Response :=
  let s := trimNulChars raw
  (rustLines s).foldl (demuxStep s) ([], [])

/-! ## Frame reader (`Socket::reader`, `src/socket.rs`) -/

/-- One result of `owned_read_half.read(&mut buf)`: a successful delivery of
at most 1024 bytes, or an I/O error. A zero-length read (peer close)
terminates the loop and is modelled by the end of the event list. -/
inductive ReadEv where
  | chunk : List Char → ReadEv
  | ioError : ReadEv
deriving DecidableEq, Repr

/-- The Rust code converts the WHOLE zeroed 1024-byte buffer with
`str::from_utf8(&buf)`, so a short read contributes its data followed by
NUL padding up to 1024 characters. -/
def padChunk (data : List Char) : List Char :=
  data ++ List.replicate (1024 - data.length) nulChar

/-- Embedding of the loop of `Socket::reader` (`src/socket.rs`): `msg`
accumulates padded chunks until it contains a newline, then is forwarded as
one frame and reset; a read error breaks the inner loop and forwards the
partial `msg` as-is. Returns the frames sent to `out_handler` for a finite
prefix of read results. -/
def Socket.readerFrames : List ReadEv → List Char → List (List Char)
  | [], _ => []
  | ReadEv.chunk c :: evs, msg =>
    let msg2 := msg ++ padChunk c
    if msg2.contains '\n' then msg2 :: Socket.readerFrames evs []
    else Socket.readerFrames evs msg2
  | ReadEv.ioError :: evs, msg => msg :: Socket.readerFrames evs []

/-! ## Command-engine request formatting and response decoding
(`src/parser.rs`) -/

/-- Rust `format!` with `{:#x}`: lowercase hexadecimal with a `0x` prefix
(`Nat.toDigits 16` uses lowercase letters and renders `0` as `"0"`). -/
def fmtHex (n : Nat) : String :=
  "0x" ++ String.mk (Nat.toDigits 16 n)

/-- Rust `format!` with `{}` on an unsigned integer: decimal. -/
def fmtDec (n : Nat) : String := Nat.repr n

/-- `clock_step` request (`Parser::clock_step`). -/
def clockStepReq : Option Nat → String
  | some ns => "clock_step " ++ fmtDec ns ++ "\n"
  | none => "clock_step\n"

/-- `clock_set` request (`Parser::clock_set`). -/
def clockSetReq (ns : Nat) : String := "clock_set " ++ fmtDec ns ++ "\n"

/-- `irq_intercept_in` request (`Parser::irq_intercept_in`). -/
def irqInterceptInReq (qomPath : String) : String :=
  "irq_intercept_in " ++ qomPath ++ "\n"

/-- `irq_intercept_out` request (`Parser::irq_intercept_out`). -/
def irqInterceptOutReq (qomPath : String) : String :=
  "irq_intercept_out " ++ qomPath ++ "\n"

/-- `set_irq_in` request (`Parser::set_irq_in`); `level` is an `isize`. -/
def setIrqInReq (qomPath irqName : String) (line : Nat) (level : Int) : String :=
  "set_irq_in " ++ qomPath ++ " " ++ irqName ++ " " ++ fmtDec line ++ " " ++
    Int.repr level ++ "\n"

/-- Request of the `$in` arm of `impl_in_out` (`inb`/`inw`/`inl`):
`format!("{} {:#x}\n", verb, addr)`. -/
def inReq (verb : String) (addr : Nat) : String :=
  verb ++ " " ++ fmtHex addr ++ "\n"

/-- Request of the `$out` arm of `impl_in_out` (`outb`/`outw`/`outl`):
`format!("{} {:#x} {:#x}\n", verb, addr, val)`. -/
def outReq (verb : String) (addr val : Nat) : String :=
  verb ++ " " ++ fmtHex addr ++ " " ++ fmtHex val ++ "\n"

/-- Request of the `$write` arm of `impl_write_read`
(`writeb`/`writew`/`writel`/`writeq`): the source formats
`format!("{} {:#x} {:#x}", verb, addr, val)` WITHOUT a trailing
newline, unlike every other request in the file. -/
def writeReq (verb : String) (addr val : Nat) : String :=
  verb ++ " " ++ fmtHex addr ++ " " ++ fmtHex val

/-- Request of the `$read` arm of `impl_write_read`
(`readb`/`readw`/`readl`/`readq`): `format!("{} {:#x}\n", verb, addr)`. -/
def readReq (verb : String) (addr : Nat) : String :=
  verb ++ " " ++ fmtHex addr ++ "\n"

/-- Bulk-read request (`Parser::read`): `format!("read {:#x} {}\n", addr, size)`. -/
def bulkReadReq (addr size : Nat) : String :=
  "read " ++ fmtHex addr ++ " " ++ fmtDec size ++ "\n"

/-- Helper for `trim_start_matches("0x")`: removes every leading `"0x"`. -/
def trim0xAux : List Char → List Char
  | '0' :: 'x' :: rest => trim0xAux rest
  | cs => cs

/-- Rust `s.trim_start_matches("0x")`: repeatedly removes a leading `"0x"`. -/
def trimStartMatches0x (s : String) : String :=
  String.mk (trim0xAux s.data)

/-- Bulk-write request (`Parser::write`): the length defaults to the TEXT
length of `data` (before the `0x` trim) unless overridden. -/
def bulkWriteReq (addr : Nat) (data : String) (dataLen : Option Nat) : String :=
  let len := match dataLen with
    | some l => l
    | none => data.length
  "write " ++ fmtHex addr ++ " " ++ fmtDec len ++ " 0x" ++
    trimStartMatches0x data ++ "\n"

/-- Value of one hexadecimal digit, both cases accepted
(Rust `from_str_radix(_, 16)`). -/
def hexVal? (c : Char) : Option Nat :=
  if '0' ≤ c ∧ c ≤ '9' then some (c.toNat - 48)
  else if 'a' ≤ c ∧ c ≤ 'f' then some (c.toNat - 87)
  else if 'A' ≤ c ∧ c ≤ 'F' then some (c.toNat - 55)
  else none

/-- Hex digits to Nat for a nonempty all-hex-digit character list. -/
def hexDigitsToNat? (cs : List Char) : Option Nat :=
  if cs.isEmpty then none
  else
    cs.foldl
      (fun acc c =>
        match acc, hexVal? c with
        | some n, some d => some (n * 16 + d)
        | _, _ => none)
      (some 0)

/-- Embedding of `u{width}::from_str_radix(s, 16)`: an optional leading
`'+'`, then one or more hex digits, failing on overflow of the fixed
width. -/
def fromStrRadix16 (width : Nat) (s : String) : Option Nat :=
  let cs := match s.data with
    | '+' :: rest => rest
    | cs => cs
  match hexDigitsToNat? cs with
  | some n => if n < 2 ^ width then some n else none
  | none => none

/-- Decode error of the read-width operations: the Rust code builds an
`io::Error` whose message carries the offending payload (`"Could not parse
value: {val} ..."`) or the fixed text `"Invalid response"`. -/
inductive DecodeError where
  | parseError : String → DecodeError
  | invalidResponse : DecodeError
deriving DecidableEq, Repr

/-- Success-path decode shared by the `$in` arm of `impl_in_out` and the
`$read` arm of `impl_write_read` (`src/parser.rs`): an `OkVal` payload is
`trim_start_matches("0x")`-ed and parsed as fixed-width hex; `Ok` and
`Err` responses alike fall to the wildcard `"Invalid response"` arm. -/
def decodeHexResponse (width : Nat) (r : Response) : Except DecodeError Nat :=
  match r with
  | Response.OkVal val =>
    match fromStrRadix16 width (trimStartMatches0x val) with
    | some n => Except.ok n
    | none => Except.error (DecodeError.parseError val)
  | _ => Except.error DecodeError.invalidResponse

/-! ## Transports (`src/socket/tcp.rs`, `src/socket/unix.rs`) -/

/-- The `io::ErrorKind` values the embedded code inspects or constructs. -/
inductive IoErrorKind where
  | addrInUse : IoErrorKind
  | notConnected : IoErrorKind
  | otherKind : IoErrorKind
deriving DecidableEq, Repr

/-- An `io::Error`: a kind plus a message. -/
structure IoError where
  kind : IoErrorKind
  msg : String
deriving DecidableEq, Repr

/-- The transport state the send path depends on: `write_stream` is `None`
until `attach_connection` stores the accepted connection's write half. -/
structure SocketState (W : Type) where
  writeStream : Option W

/-- State after `SocketTcp::new` / `SocketUnix::new`: `write_stream: None`. -/
def Socket.newState {W : Type} : SocketState W := ⟨none⟩

/-- Embedding of `attach_connection` (both transports): on a successful
accept the write half is stored; on failure the error is returned. -/
def Socket.attachConnection {W : Type} (st : SocketState W)
    (accept : Except IoError W) : Except IoError (SocketState W) :=
  match accept with
  | Except.ok w => Except.ok { st with writeStream := some w }
  | Except.error e => Except.error e

/-- Embedding of `SocketTcp::send` (`src/socket/tcp.rs`): with no attached
stream it fails `NotConnected`/`"No connection"` leaving the state as it
was; otherwise it performs the OS write (abstracted by `write`, returning
the byte count or an error). -/
def SocketTcp.send {W : Type} (st : SocketState W) (data : String)
    (write : W → String → Except IoError Nat) :
    Except IoError Nat × SocketState W :=
  match st.writeStream with
  | some stream => (write stream data, st)
  | none => (Except.error ⟨IoErrorKind.notConnected, "No connection"⟩, st)

/-- Embedding of `SocketUnix::send` (`src/socket/unix.rs`): as the TCP one
but via `try_write` and with message `"No connection attached"`. -/
def SocketUnix.send {W : Type} (st : SocketState W) (data : String)
    (tryWrite : W → String → Except IoError Nat) :
    Except IoError Nat × SocketState W :=
  match st.writeStream with
  | some stream => (tryWrite stream data, st)
  | none => (Except.error ⟨IoErrorKind.notConnected, "No connection attached"⟩, st)

/-- Outcomes the OS can give `SocketUnix::new`: the result of the n-th
`UnixListener::bind(path)` call and of `fs::remove_file(path)`. -/
structure UnixEnv where
  bindResult : Nat → Except IoError Unit
  removeFileResult : Except IoError Unit

/-- Trace of `SocketUnix::new`: the returned result plus how many bind and
remove_file calls were made. -/
structure NewTrace where
  result : Except IoError Unit
  bindCalls : Nat
  removeCalls : Nat

/-- Embedding of `SocketUnix::new` (`src/socket/unix.rs`): bind once; on
`AddrInUse` delete the stale path and bind exactly one more time, surfacing
that second outcome; on any other bind error, or a failing delete, return
the error with no retry. -/
def SocketUnix.new (env : UnixEnv) : NewTrace :=
  match env.bindResult 0 with
  | Except.ok _ => ⟨Except.ok (), 1, 0⟩
  | Except.error e =>
    match e.kind with
    | IoErrorKind.addrInUse =>
      match env.removeFileResult with
      | Except.error e2 => ⟨Except.error e2, 1, 1⟩
      | Except.ok _ =>
        match env.bindResult 1 with
        | Except.ok _ => ⟨Except.ok (), 2, 1⟩
        | Except.error e2 => ⟨Except.error e2, 2, 1⟩
    | _ => ⟨Except.error e, 1, 0⟩

/-! ## Spec-side grammars (stated from the specification's words, to be
compared with the embedded code) -/

/-- Response grammar as the spec states it: if the first
whitespace-separated token is not `OK` (in particular if there is none),
the whole line is `Err`; `OK` alone is `Ok`; `OK` followed by further
tokens is `OkVal` of those tokens rejoined with single spaces. -/
def responseGrammar (s : String) : Response :=
  match splitWhitespace s with
  | [] => Response.Err s
  | t :: rest =>
    if t = "OK" then
      match rest with
      | [] => Response.Ok
      | _ :: _ => Response.OkVal (String.intercalate " " rest)
    else Response.Err s

/-- IRQ grammar as the spec states it: exactly the three tokens `IRQ`,
`raise`|`lower`, and a non-negative integer (a parseable usize literal),
with no trailing tokens. -/
def IrqGrammarP (s : String) : Prop :=
  ∃ t1 t2 n, splitWhitespace s = ["IRQ", t1, t2] ∧
    (t1 = "raise" ∨ t1 = "lower") ∧ parseUsize t2 = some n

end QTest

namespace QTest

/-! ## Claim theorems -/

/-- C1: for every input string, `Response::from` decodes per the response
grammar — a first token other than `OK` gives `Err` of the whole line,
bare `OK` gives `Ok`, and `OK` with further tokens gives `OkVal` of the
remaining tokens rejoined with single spaces; in particular
`Response::from("OK") = Ok`, `Response::from("OK 5") = OkVal("5")` and
`Response::from("anything else") = Err("anything else")`. -/
theorem response_from_grammar :
    (∀ s : String, Response.fromStr s = responseGrammar s) ∧
    Response.fromStr "OK" = Response.Ok ∧
    Response.fromStr "OK 5" = Response.OkVal "5" ∧
    Response.fromStr "anything else" = Response.Err "anything else" := by
  refine ⟨?_, by decide, by decide, by decide⟩
  intro s
  unfold Response.fromStr responseGrammar
  cases h : splitWhitespace s with
  | nil => simp
  | cons t rest =>
    by_cases ht : t = "OK"
    · subst ht
      cases rest <;> simp
    · simp [ht]

/-- Helper for C2: token-level success characterization of the IRQ parser. -/
theorem fromTokens_ok_iff (ts : List String) :
    (∃ irq, Irq.fromTokens ts = Except.ok irq) ↔
      (∃ t1 t2 n, ts = ["IRQ", t1, t2] ∧
        (t1 = "raise" ∨ t1 = "lower") ∧ parseUsize t2 = some n) := by
  match ts with
  | [] => simp [Irq.fromTokens]
  | [t0] =>
    by_cases h0 : t0 = "IRQ" <;> simp [Irq.fromTokens, h0]
  | [t0, t1] =>
    by_cases h0 : t0 = "IRQ" <;>
      by_cases h1 : t1 = "raise" <;>
        by_cases h2 : t1 = "lower" <;>
          simp [Irq.fromTokens, Irq.fromLineTokens, h0, h1, h2]
  | [t0, t1, t2] =>
    by_cases h0 : t0 = "IRQ" <;>
      by_cases h1 : t1 = "raise" <;>
        by_cases h2 : t1 = "lower" <;>
          cases hp : parseUsize t2 <;>
            simp [Irq.fromTokens, Irq.fromLineTokens, h0, h1, h2, hp] <;>
              exact ⟨_, _, ⟨rfl, rfl⟩, by simp, _, hp⟩
  | t0 :: t1 :: t2 :: t3 :: rest =>
    by_cases h0 : t0 = "IRQ" <;>
      by_cases h1 : t1 = "raise" <;>
        by_cases h2 : t1 = "lower" <;>
          cases hp : parseUsize t2 <;>
            simp [Irq.fromTokens, Irq.fromLineTokens, h0, h1, h2, hp]

/-- C2: `Irq::try_from` succeeds exactly on strings matching the IRQ
grammar (`IRQ`, then `raise` or `lower`, then a non-negative integer, no
trailing tokens), with the stated outcomes on the representative inputs. -/
theorem irq_tryFrom_grammar :
    (∀ s : String, (∃ irq, Irq.tryFrom s = Except.ok irq) ↔ IrqGrammarP s) ∧
    Irq.tryFrom "IRQ raise 1" = Except.ok (Irq.new 1 IrqState.Raise) ∧
    Irq.tryFrom "IRQ lower 2" = Except.ok (Irq.new 2 IrqState.Lower) ∧
    Irq.tryFrom "IRQ raise -1" = Except.error "Invalid IRQ line" ∧
    Irq.tryFrom "IRQ raise 1 extra" = Except.error "Invalid IRQ string" ∧
    Irq.tryFrom "not-irq" = Except.error "Invalid IRQ string" := by
  refine ⟨?_, by rfl, by rfl, by rfl, by rfl, by rfl⟩
  intro s
  exact fromTokens_ok_iff (splitWhitespace s)

/-- Helper: closed form of the demultiplexing loop — the IRQ channel gets
the parses of the non-empty parsing lines, the Response channel one
re-parse of the whole block `s` per non-empty non-parsing line. -/
theorem foldl_demuxStep (s : String) :
    ∀ (ls : List String) (irqs : List Irq) (resps : List Response),
      ls.foldl (demuxStep s) (irqs, resps) =
        (irqs ++ ls.filterMap (fun l => if l = "" then none else (Irq.tryFrom l).toOption),
         resps ++ (ls.filter (fun l => !(l == "") && !(Irq.parses l))).map
           (fun _ => Response.fromStr s))
  | [], irqs, resps => by simp
  | l :: ls, irqs, resps => by
    by_cases hl : l = ""
    · subst hl
      simpa [demuxStep] using foldl_demuxStep s ls irqs resps
    · cases hir : Irq.tryFrom l with
      | ok irq =>
        simpa [demuxStep, hl, hir, Irq.parses, List.filterMap_cons, List.filter_cons] using
          foldl_demuxStep s ls (irqs ++ [irq]) resps
      | error e =>
        simpa [demuxStep, hl, hir, Irq.parses, List.filterMap_cons, List.filter_cons] using
          foldl_demuxStep s ls irqs (resps ++ [Response.fromStr s])

/-- C3: per framed block, blank lines are discarded, each parsing line
emits one IRQ event, and each non-parsing non-blank line enqueues one
`Response` re-parsed from the entire (NUL-trimmed) block; in particular a
block of two IRQ lines and one response line yields two IRQ events plus
one `Response` derived from the whole block text. The block `"OK\n\r"`
shows the per-line re-parse on the Rust `lines` decomposition: its final
unterminated line is the non-blank `"\r"`, so TWO responses are enqueued,
each `Response::from` of the whole block. -/
theorem reader_demux_block :
    (∀ raw : String,
      Reader.processBlock raw =
        ((rustLines (trimNulChars raw)).filterMap
           (fun l => if l = "" then none else (Irq.tryFrom l).toOption),
         ((rustLines (trimNulChars raw)).filter
            (fun l => !(l == "") && !(Irq.parses l))).map
           (fun _ => Response.fromStr (trimNulChars raw)))) ∧
    Reader.processBlock "IRQ raise 1\nIRQ lower 2\nOK 5\n" =
      ([Irq.new 1 IrqState.Raise, Irq.new 2 IrqState.Lower],
       [Response.Err "IRQ raise 1\nIRQ lower 2\nOK 5\n"]) ∧
    Response.fromStr "IRQ raise 1\nIRQ lower 2\nOK 5\n" =
      Response.Err "IRQ raise 1\nIRQ lower 2\nOK 5\n" ∧
    rustLines "OK\n\r" = ["OK", "\r"] ∧
    Reader.processBlock "OK\n\r" = ([], [Response.Ok, Response.Ok]) := by
  refine ⟨?_, by rfl, by rfl, by rfl, by rfl⟩
  intro raw
  unfold Reader.processBlock
  simpa using foldl_demuxStep (trimNulChars raw) (rustLines (trimNulChars raw)) [] []

/-- C4 counterexample: the block whose only line is `"IRQ raise 1 extra"`
begins with the literal token `IRQ`, yet the demultiplexer enqueues it on
the Response channel (and emits no IRQ event), because only lines matching
the FULL IRQ grammar are kept off the Response channel. -/
theorem irq_token_line_becomes_response :
    (splitWhitespace "IRQ raise 1 extra").head? = some "IRQ" ∧
    Reader.processBlock "IRQ raise 1 extra\n" =
      ([], [Response.Err "IRQ raise 1 extra\n"]) :=
  ⟨rfl, rfl⟩

/-- Helper: the length of a `filterMap` is the number of kept elements. -/
theorem length_filterMap_isSome {α β : Type} (g : α → Option β) :
    ∀ ls : List α, (ls.filterMap g).length = (ls.filter (fun a => (g a).isSome)).length
  | [] => rfl
  | a :: ls => by
    cases hg : g a <;> simp [List.filterMap_cons, hg, length_filterMap_isSome g ls]

/-- C4 (amended): a line that parses as an IRQ event is never treated as a
response, and every other non-empty line produces exactly one response
record — per block, the Response channel receives one record per
non-empty non-parsing line and the IRQ channel one event per non-empty
parsing line. -/
theorem demux_irq_vs_response :
    ∀ raw : String,
      (Reader.processBlock raw).2.length =
        ((rustLines (trimNulChars raw)).filter
          (fun l => !(l == "") && !(Irq.parses l))).length ∧
      (Reader.processBlock raw).1.length =
        ((rustLines (trimNulChars raw)).filter
          (fun l => !(l == "") && Irq.parses l)).length := by
  intro raw
  have h := foldl_demuxStep (trimNulChars raw) (rustLines (trimNulChars raw)) [] []
  unfold Reader.processBlock
  rw [h]
  constructor
  · simp
  · simp only [List.nil_append]
    rw [length_filterMap_isSome]
    congr 1
    apply List.filter_congr
    intro l _
    by_cases hl : l = "" <;> simp [hl, Irq.parses]

/-- Helper: as long as reads succeed, every frame the reader forwards
passed the `msg.contains('\n')` check. -/
theorem readerFrames_mem_newline :
    ∀ (evs : List ReadEv) (msg f : List Char),
      (∀ e ∈ evs, e ≠ ReadEv.ioError) →
      f ∈ Socket.readerFrames evs msg → f.contains '\n' = true
  | [], _, f, _, hf => by simp [Socket.readerFrames] at hf
  | ReadEv.chunk c :: evs, msg, f, hne, hf => by
    rw [Socket.readerFrames] at hf
    by_cases hnl : (msg ++ padChunk c).contains '\n'
    · rw [if_pos hnl] at hf
      rcases List.mem_cons.mp hf with rfl | hf'
      · exact hnl
      · exact readerFrames_mem_newline evs [] f
          (fun e he => hne e (List.mem_cons_of_mem _ he)) hf'
    · rw [if_neg hnl] at hf
      exact readerFrames_mem_newline evs (msg ++ padChunk c) f
        (fun e he => hne e (List.mem_cons_of_mem _ he)) hf
  | ReadEv.ioError :: evs, msg, f, hne, hf =>
    absurd rfl (hne ReadEv.ioError (List.mem_cons_self _ _))

/-! Helpers about the 1024-byte NUL-padded buffers. The `List.replicate`
runs are kept symbolic (lemmas quantify over the run length) so that no
proof ever evaluates a 1024-element list. -/

/-- Helper: the NUL character is not whitespace (so NUL runs survive
`split_whitespace` inside a token). -/
theorem isWs_nulChar : isWs nulChar = false := rfl

/-- Helper: the padded `"OK "` buffer, in closed form. -/
theorem pad1_eq : padChunk ("OK ").data = ['O', 'K', ' '] ++ List.replicate 1021 nulChar := rfl

/-- Helper: the padded `"1\n"` buffer, in closed form. -/
theorem pad2_eq : padChunk ("1\n").data = ['1', '\n'] ++ List.replicate 1022 nulChar := rfl

/-- Helper: the padded `"a\n"` buffer, in closed form. -/
theorem pada_eq : padChunk ("a\n").data = ['a', '\n'] ++ List.replicate 1022 nulChar := rfl

/-- Helper: no newline occurs in the padded `"OK "` buffer. -/
theorem newline_not_mem_pad1 (n : Nat) :
    ¬ ('\n' ∈ (['O', 'K', ' '] ++ List.replicate n nulChar)) := by
  simp [List.mem_replicate, nulChar]

/-- Helper: a newline occurs in a buffer ending in `"x\n"` plus padding. -/
theorem newline_mem_nl_pad (c : Char) (l : List Char) (m : Nat) :
    '\n' ∈ (l ++ ([c, '\n'] ++ List.replicate m nulChar)) := by
  simp

/-- Helper: the reader forwards the two deliveries `"OK "` and `"1\n"` as
ONE frame, the concatenation of the two padded buffers. -/
theorem readerFrames_ok_split :
    Socket.readerFrames [ReadEv.chunk ("OK ").data, ReadEv.chunk ("1\n").data] [] =
      [padChunk ("OK ").data ++ padChunk ("1\n").data] := by
  have hm1 : ¬ ('\n' ∈ padChunk ['O', 'K', ' ']) := by
    rw [show padChunk ['O', 'K', ' '] = ['O', 'K', ' '] ++ List.replicate 1021 nulChar from rfl]
    exact newline_not_mem_pad1 1021
  have hm2 : '\n' ∈ padChunk ['1', '\n'] := by
    rw [show padChunk ['1', '\n'] = ['1', '\n'] ++ List.replicate 1022 nulChar from rfl]
    simp [-List.reduceReplicate]
  simp [Socket.readerFrames, hm1, hm2, -List.reduceReplicate]

/-- C5: a frame is forwarded downstream only once the accumulated buffer
contains a newline (for every error-free sequence of raw deliveries); in
particular the response split across the two deliveries `"OK "` and
`"1\n"` is reassembled into a single frame before classification. -/
theorem frame_forwarded_on_newline :
    (∀ (evs : List ReadEv) (f : List Char),
      (∀ e ∈ evs, e ≠ ReadEv.ioError) →
      f ∈ Socket.readerFrames evs [] → f.contains '\n' = true) ∧
    Socket.readerFrames [ReadEv.chunk ("OK ").data, ReadEv.chunk ("1\n").data] [] =
      [padChunk ("OK ").data ++ padChunk ("1\n").data] :=
  ⟨fun evs f => readerFrames_mem_newline evs [] f, readerFrames_ok_split⟩

/-- Helper: the reader forwards the single delivery `"a\n"` as one frame. -/
theorem readerFrames_single_a :
    Socket.readerFrames [ReadEv.chunk ("a\n").data] [] = [padChunk ("a\n").data] := by
  have hm : '\n' ∈ padChunk ['a', '\n'] := by
    rw [show padChunk ['a', '\n'] = ['a', '\n'] ++ List.replicate 1022 nulChar from rfl]
    simp [-List.reduceReplicate]
  simp [Socket.readerFrames, hm, -List.reduceReplicate]

/-- C5 witness: instantiated at the single delivery `"a\n"`. -/
theorem frame_forwarded_on_newline_witness :
    (padChunk ("a\n").data).contains '\n' = true :=
  frame_forwarded_on_newline.1 [ReadEv.chunk ("a\n").data] (padChunk ("a\n").data)
    (by
      intro e he
      rw [List.mem_singleton] at he
      subst he
      intro hc
      cases hc)
    (by rw [readerFrames_single_a]; exact List.mem_singleton.mpr rfl)

/-! Helpers computing the demultiplexer's behaviour on the padded frame
`"OK " ++ NUL*1021 ++ "1\n" ++ NUL*1022`. -/

/-- Helper: `splitWsAux` walks over a run of non-whitespace characters by
moving it (reversed) onto the accumulator. -/
theorem splitWsAux_nonws :
    ∀ (cs : List Char), (∀ c ∈ cs, isWs c = false) →
      ∀ (l acc : List Char), splitWsAux (cs ++ l) acc = splitWsAux l (cs.reverse ++ acc)
  | [], _, l, acc => by simp
  | c :: cs, hcs, l, acc => by
    have hc : isWs c = false := hcs c (List.mem_cons_self c cs)
    have ih := splitWsAux_nonws cs (fun x hx => hcs x (List.mem_cons_of_mem c hx)) l (c :: acc)
    simpa [splitWsAux, hc] using ih

/-- Helper: every character of a NUL run is non-whitespace. -/
theorem replicate_nul_nonws (n : Nat) :
    ∀ c ∈ List.replicate n nulChar, isWs c = false := by
  intro c hc
  rw [List.eq_of_mem_replicate hc]
  exact isWs_nulChar

/-- Helper: the tokens of `"OK " ++ NUL*n ++ "1"` followed by anything that
starts with a newline: the NUL run is glued to the `'1'` in one token. -/
theorem splitWs_ok_nul_one (n : Nat) (tl : List Char) :
    splitWsAux (['O', 'K', ' '] ++ (List.replicate n nulChar ++ ('1' :: tl))) [] =
      "OK" :: splitWsAux ('1' :: tl) (List.replicate n nulChar) := by
  have h1 : splitWsAux (['O', 'K', ' '] ++ (List.replicate n nulChar ++ ('1' :: tl))) [] =
      String.mk ['O', 'K'] :: splitWsAux (List.replicate n nulChar ++ ('1' :: tl)) [] := rfl
  rw [h1, splitWsAux_nonws (List.replicate n nulChar) (replicate_nul_nonws n)]
  simp [List.reverse_replicate]

/-- Helper: the token list of the NUL-padded OK line (with trailing
newline, as the trimmed block has). -/
theorem splitWs_block (n : Nat) :
    splitWhitespace (String.mk (['O', 'K', ' '] ++ List.replicate n nulChar ++ ['1', '\n'])) =
      ["OK", String.mk (List.replicate n nulChar ++ ['1'])] := by
  unfold splitWhitespace
  have hd : (String.mk (['O', 'K', ' '] ++ List.replicate n nulChar ++ ['1', '\n'])).data =
      ['O', 'K', ' '] ++ (List.replicate n nulChar ++ ('1' :: ['\n'])) := by
    simp
  rw [hd, splitWs_ok_nul_one n ['\n']]
  have h2 : splitWsAux ('1' :: ['\n']) (List.replicate n nulChar) =
      [String.mk ('1' :: List.replicate n nulChar).reverse] := rfl
  rw [h2]
  simp

/-- Helper: the token list of the NUL-padded OK line without the newline
(the line as it comes out of the line splitter). -/
theorem splitWs_line (n : Nat) :
    splitWhitespace (String.mk (['O', 'K', ' '] ++ List.replicate n nulChar ++ ['1'])) =
      ["OK", String.mk (List.replicate n nulChar ++ ['1'])] := by
  unfold splitWhitespace
  have hd : (String.mk (['O', 'K', ' '] ++ List.replicate n nulChar ++ ['1'])).data =
      ['O', 'K', ' '] ++ (List.replicate n nulChar ++ ('1' :: [])) := by
    simp
  rw [hd, splitWs_ok_nul_one n []]
  have h2 : splitWsAux ('1' :: []) (List.replicate n nulChar) =
      [String.mk ('1' :: List.replicate n nulChar).reverse] := rfl
  rw [h2]
  simp

/-- Helper: dropping while a predicate holds skips a run of satisfying
characters. -/
theorem dropWhile_replicate_append (p : Char → Bool) (c : Char) (hp : p c = true) :
    ∀ (k : Nat) (l : List Char), (List.replicate k c ++ l).dropWhile p = l.dropWhile p
  | 0, _ => rfl
  | k + 1, l => by
    simp [List.replicate_succ, List.dropWhile_cons, hp,
      dropWhile_replicate_append p c hp k l]

/-- Helper: NUL-trimming the padded frame strips exactly the trailing NUL
run, keeping the interior one. -/
theorem trimNul_block (n m : Nat) :
    trimNulChars (String.mk
        (['O', 'K', ' '] ++ List.replicate n nulChar ++ (['1', '\n'] ++ List.replicate m nulChar))) =
      String.mk (['O', 'K', ' '] ++ List.replicate n nulChar ++ ['1', '\n']) := by
  unfold trimNulChars
  have hfront : (['O', 'K', ' '] ++ List.replicate n nulChar ++
      (['1', '\n'] ++ List.replicate m nulChar)).dropWhile (· = nulChar) =
      ['O', 'K', ' '] ++ List.replicate n nulChar ++ (['1', '\n'] ++ List.replicate m nulChar) := by
    simp [List.dropWhile_cons, nulChar]
  have hback : (['O', 'K', ' '] ++ List.replicate n nulChar ++
      (['1', '\n'] ++ List.replicate m nulChar)).reverse.dropWhile (· = nulChar) =
      (['O', 'K', ' '] ++ List.replicate n nulChar ++ ['1', '\n']).reverse := by
    rw [show (['O', 'K', ' '] ++ List.replicate n nulChar ++ (['1', '\n'] ++ List.replicate m nulChar)) =
        ((['O', 'K', ' '] ++ List.replicate n nulChar ++ ['1', '\n']) ++ List.replicate m nulChar) by
      simp]
    rw [List.reverse_append, List.reverse_replicate,
      dropWhile_replicate_append _ nulChar (by simp) m]
    simp [List.dropWhile_cons, nulChar]
  rw [show (String.mk (['O', 'K', ' '] ++ List.replicate n nulChar ++
      (['1', '\n'] ++ List.replicate m nulChar))).data =
      ['O', 'K', ' '] ++ List.replicate n nulChar ++ (['1', '\n'] ++ List.replicate m nulChar) from rfl]
  rw [hfront, hback, List.reverse_reverse]

/-- Helper: split-on-newline peels a newline-free line off the front. -/
theorem splitOnNl_no_nl :
    ∀ (l : List Char), ¬ ('\n' ∈ l) → ∀ (rest : List Char),
      splitOnNl (l ++ '\n' :: rest) = l :: splitOnNl rest
  | [], _, rest => by simp [splitOnNl]
  | c :: l, h, rest => by
    have hc : ¬ c = '\n' := fun hc => h (by simp [hc])
    have ih := splitOnNl_no_nl l (fun hm => h (by simp [hm])) rest
    simp [splitOnNl, hc, ih]

/-- Helper: the line splitter extracts the single padded line from the
trimmed block (trailing terminator produces no extra line). -/
theorem rustLines_block (n : Nat) :
    rustLines (String.mk (['O', 'K', ' '] ++ List.replicate n nulChar ++ ['1', '\n'])) =
      [String.mk (['O', 'K', ' '] ++ List.replicate n nulChar ++ ['1'])] := by
  unfold rustLines
  have hd : (String.mk (['O', 'K', ' '] ++ List.replicate n nulChar ++ ['1', '\n'])).data =
      (['O', 'K', ' '] ++ List.replicate n nulChar ++ ['1']) ++ '\n' :: [] := by
    simp
  have hnl : ¬ ('\n' ∈ (['O', 'K', ' '] ++ List.replicate n nulChar ++ ['1'])) := by
    simp [List.mem_replicate, nulChar]
  rw [hd, splitOnNl_no_nl _ hnl []]
  have hsegs : rustLinesSegs ((['O', 'K', ' '] ++ List.replicate n nulChar ++ ['1']) :: splitOnNl []) =
      [String.mk (stripTrailingCr (['O', 'K', ' '] ++ List.replicate n nulChar ++ ['1']))] := rfl
  have hcr : stripTrailingCr (['O', 'K', ' '] ++ List.replicate n nulChar ++ ['1']) =
      ['O', 'K', ' '] ++ List.replicate n nulChar ++ ['1'] := by
    unfold stripTrailingCr
    rw [show (['O', 'K', ' '] ++ List.replicate n nulChar ++ ['1']) =
        (['O', 'K', ' '] ++ List.replicate n nulChar) ++ ['1'] by simp]
    rw [List.getLast?_concat]
    simp
  rw [hsegs, hcr]

/-- Helper: the padded line fails the IRQ grammar (first token is `OK`). -/
theorem tryFrom_padded_line (n : Nat) :
    Irq.tryFrom (String.mk (['O', 'K', ' '] ++ List.replicate n nulChar ++ ['1'])) =
      Except.error "Invalid IRQ string" := by
  unfold Irq.tryFrom
  rw [splitWs_line n]
  rfl

/-- Helper: re-parsing the whole trimmed block as a response yields an
`OkVal` whose payload is the NUL run glued to the `'1'`. -/
theorem fromStr_block (n : Nat) :
    Response.fromStr (String.mk (['O', 'K', ' '] ++ List.replicate n nulChar ++ ['1', '\n'])) =
      Response.OkVal (String.mk (List.replicate n nulChar ++ ['1'])) := by
  unfold Response.fromStr
  rw [splitWs_block n]
  rfl

/-- C10: delivering `"OK "` then `"1\n"` yields one frame made of the two
1024-byte NUL-padded buffers; only leading and trailing NULs are trimmed
before line-splitting, so the decoded payload is the run of 1021 interior
NUL characters followed by `"1"` (1022 characters), not the one-character
payload `"1"`. -/
theorem nul_padding_in_payload :
    Socket.readerFrames [ReadEv.chunk ("OK ").data, ReadEv.chunk ("1\n").data] [] =
      [padChunk ("OK ").data ++ padChunk ("1\n").data] ∧
    Reader.processBlock (String.mk (padChunk ("OK ").data ++ padChunk ("1\n").data)) =
      ([], [Response.OkVal (String.mk (List.replicate 1021 nulChar ++ ['1']))]) ∧
    (String.mk (List.replicate 1021 nulChar ++ ['1'])).data.length = 1022 := by
  refine ⟨readerFrames_ok_split, ?_, ?_⟩
  · rw [show padChunk ("OK ").data ++ padChunk ("1\n").data =
        ['O', 'K', ' '] ++ List.replicate 1021 nulChar ++
          (['1', '\n'] ++ List.replicate 1022 nulChar) by
      rw [pad1_eq, pad2_eq]]
    have hpb : ∀ raw, Reader.processBlock raw =
        (rustLines (trimNulChars raw)).foldl (demuxStep (trimNulChars raw)) ([], []) :=
      fun _ => rfl
    have hne : ¬ (String.mk (['O', 'K', ' '] ++ List.replicate 1021 nulChar ++ ['1']) = "") := by
      rw [String.ext_iff]
      simp [-List.reduceReplicate]
    rw [hpb, trimNul_block 1021 1022, rustLines_block 1021, List.foldl_cons, List.foldl_nil]
    unfold demuxStep
    rw [if_neg hne, tryFrom_padded_line 1021, fromStr_block 1021]
    rfl
  · show (List.replicate 1021 nulChar ++ ['1']).length = 1022
    simp [-List.reduceReplicate]

/-- C6 (code bug): every command-engine request is formatted per the
grammar table and is newline-terminated — EXCEPT the MMIO write family:
the `$write` arm of `impl_write_read` omits the trailing `"\n"`, so
`writeb(0x10, 0x2a)` produces `"writeb 0x10 0x2a"` with no terminator,
while every sibling request (shown for representative inputs of the other
families) ends in a newline. -/
theorem write_req_missing_newline :
    writeReq "writeb" 16 42 = "writeb 0x10 0x2a" ∧
    (writeReq "writeb" 16 42).data.getLast? = some 'a' ∧
    writeReq "writeq" 4096 65535 = "writeq 0x1000 0xffff" ∧
    readReq "readb" 16 = "readb 0x10\n" ∧
    inReq "inb" 16 = "inb 0x10\n" ∧
    outReq "outb" 16 42 = "outb 0x10 0x2a\n" ∧
    clockStepReq (some 5) = "clock_step 5\n" ∧
    clockStepReq none = "clock_step\n" ∧
    clockSetReq 100 = "clock_set 100\n" ∧
    irqInterceptInReq "/machine/soc" = "irq_intercept_in /machine/soc\n" ∧
    irqInterceptOutReq "/machine/soc" = "irq_intercept_out /machine/soc\n" ∧
    setIrqInReq "/machine/soc" "irq" 3 1 = "set_irq_in /machine/soc irq 3 1\n" ∧
    bulkReadReq 16 8 = "read 0x10 8\n" ∧
    bulkWriteReq 16 "0xdead" none = "write 0x10 6 0xdead\n" ∧
    bulkWriteReq 16 "0xdead" (some 2) = "write 0x10 2 0xdead\n" := by
  exact ⟨rfl, rfl, rfl, rfl, rfl, rfl, rfl, rfl, rfl, rfl, rfl, rfl, rfl, rfl, rfl⟩

/-- C7: for every read-width operation the success decode takes an `OkVal`
payload, strips an optional `0x` prefix, and parses it as fixed-width hex:
decoding the synthetic response `"OK 0x2a"` yields 42 at each of the
widths 8, 16, 32 and 64; `Ok` and `Err` responses give the
`"Invalid response"` error, and any payload that fails the hex parse gives
the `"Could not parse value"` error carrying the payload. -/
theorem read_decode_hex :
    decodeHexResponse 8 (Response.fromStr "OK 0x2a") = Except.ok 42 ∧
    decodeHexResponse 16 (Response.fromStr "OK 0x2a") = Except.ok 42 ∧
    decodeHexResponse 32 (Response.fromStr "OK 0x2a") = Except.ok 42 ∧
    decodeHexResponse 64 (Response.fromStr "OK 0x2a") = Except.ok 42 ∧
    decodeHexResponse 8 (Response.OkVal "2a") = Except.ok 42 ∧
    (∀ w : Nat, decodeHexResponse w Response.Ok = Except.error DecodeError.invalidResponse) ∧
    (∀ (w : Nat) (e : String),
      decodeHexResponse w (Response.Err e) = Except.error DecodeError.invalidResponse) ∧
    (∀ (w : Nat) (val : String),
      fromStrRadix16 w (trimStartMatches0x val) = none →
      decodeHexResponse w (Response.OkVal val) = Except.error (DecodeError.parseError val)) := by
  refine ⟨rfl, rfl, rfl, rfl, rfl, fun _ => rfl, fun _ _ => rfl, ?_⟩
  intro w val h
  simp [decodeHexResponse, h]

/-- C7 witness: the non-hex payload `"zz"` at width 8. -/
theorem read_decode_hex_witness :
    decodeHexResponse 8 (Response.OkVal "zz") = Except.error (DecodeError.parseError "zz") :=
  read_decode_hex.2.2.2.2.2.2.2 8 "zz" rfl

/-- C8: if the first bind fails with `AddrInUse`, `SocketUnix::new`
removes the stale path and retries the bind exactly once (two bind calls,
one remove), surfacing the second outcome whatever it is; a first-bind
failure of any other kind, or a failing remove, is returned with no
retry. -/
theorem unix_bind_retry :
    (∀ (env : UnixEnv) (e : IoError),
      env.bindResult 0 = Except.error e → e.kind = IoErrorKind.addrInUse →
      env.removeFileResult = Except.ok () →
      SocketUnix.new env = ⟨env.bindResult 1, 2, 1⟩) ∧
    (∀ (env : UnixEnv) (e : IoError),
      env.bindResult 0 = Except.error e → e.kind ≠ IoErrorKind.addrInUse →
      SocketUnix.new env = ⟨Except.error e, 1, 0⟩) ∧
    (∀ (env : UnixEnv) (e e2 : IoError),
      env.bindResult 0 = Except.error e → e.kind = IoErrorKind.addrInUse →
      env.removeFileResult = Except.error e2 →
      SocketUnix.new env = ⟨Except.error e2, 1, 1⟩) ∧
    (∀ env : UnixEnv, env.bindResult 0 = Except.ok () →
      SocketUnix.new env = ⟨Except.ok (), 1, 0⟩) := by
  refine ⟨?_, ?_, ?_, ?_⟩
  · intro env e h hk hr
    obtain ⟨k, m⟩ := e
    simp only at hk
    subst hk
    unfold SocketUnix.new
    rw [h, hr]
    cases hb : env.bindResult 1 with
    | ok u => cases u; rfl
    | error e2 => rfl
  · intro env e h hk
    obtain ⟨k, m⟩ := e
    unfold SocketUnix.new
    rw [h]
    cases k <;> first
      | rfl
      | exact absurd rfl hk
  · intro env e e2 h hk hr
    obtain ⟨k, m⟩ := e
    simp only at hk
    subst hk
    unfold SocketUnix.new
    rw [h, hr]
  · intro env h
    unfold SocketUnix.new
    rw [h]

/-- C8 witness: an environment whose path is initially in use, whose
remove succeeds and whose second bind succeeds: two binds, one remove,
overall success. -/
theorem unix_bind_retry_witness :
    SocketUnix.new
        ⟨fun n => if n = 0 then Except.error ⟨IoErrorKind.addrInUse, "in use"⟩ else Except.ok (),
         Except.ok ()⟩ =
      ⟨Except.ok (), 2, 1⟩ :=
  unix_bind_retry.1
    ⟨fun n => if n = 0 then Except.error ⟨IoErrorKind.addrInUse, "in use"⟩ else Except.ok (),
     Except.ok ()⟩
    ⟨IoErrorKind.addrInUse, "in use"⟩ rfl rfl rfl

/-- C9: on both transports, `send` before a connection is attached (the
state in which `write_stream` is still `None`, as right after `new`) fails
with the `NotConnected` error and leaves the state unchanged; once a
connection is attached, `send` performs the stream write and returns its
byte count. -/
theorem send_requires_attach :
    (∀ (W : Type), (Socket.newState : SocketState W).writeStream = none) ∧
    (∀ (W : Type) (st : SocketState W) (data : String)
        (write : W → String → Except IoError Nat),
      st.writeStream = none →
      SocketTcp.send st data write =
        (Except.error ⟨IoErrorKind.notConnected, "No connection"⟩, st)) ∧
    (∀ (W : Type) (st : SocketState W) (data : String)
        (tryWrite : W → String → Except IoError Nat),
      st.writeStream = none →
      SocketUnix.send st data tryWrite =
        (Except.error ⟨IoErrorKind.notConnected, "No connection attached"⟩, st)) ∧
    (∀ (W : Type) (st st' : SocketState W) (w : W) (data : String)
        (write : W → String → Except IoError Nat),
      Socket.attachConnection st (Except.ok w) = Except.ok st' →
      SocketTcp.send st' data write = (write w data, st') ∧
      SocketUnix.send st' data write = (write w data, st')) := by
  refine ⟨fun _ => rfl, ?_, ?_, ?_⟩
  · intro W st data write h
    unfold SocketTcp.send
    rw [h]
  · intro W st data tryWrite h
    unfold SocketUnix.send
    rw [h]
  · intro W st st' w data write h
    have hst : st' = { st with writeStream := some w } := by
      unfold Socket.attachConnection at h
      exact (Except.ok.injEq _ _).mp h.symm ▸ rfl
    subst hst
    exact ⟨rfl, rfl⟩

/-- C9 witness: a concrete unattached state fails `NotConnected` on both
transports, and after an attach the write outcome is returned. -/
theorem send_requires_attach_witness :
    SocketTcp.send (Socket.newState : SocketState Unit) "readb 0x10\n" (fun _ s => Except.ok s.length) =
      (Except.error ⟨IoErrorKind.notConnected, "No connection"⟩, Socket.newState) ∧
    SocketUnix.send (Socket.newState : SocketState Unit) "readb 0x10\n" (fun _ s => Except.ok s.length) =
      (Except.error ⟨IoErrorKind.notConnected, "No connection attached"⟩, Socket.newState) ∧
    SocketTcp.send (SocketState.mk (some ())) "readb 0x10\n" (fun _ s => Except.ok s.length) =
      (Except.ok 11, SocketState.mk (some ())) :=
  ⟨send_requires_attach.2.1 Unit Socket.newState "readb 0x10\n" (fun _ s => Except.ok s.length) rfl,
   send_requires_attach.2.2.1 Unit Socket.newState "readb 0x10\n" (fun _ s => Except.ok s.length) rfl,
   ((send_requires_attach.2.2.2 Unit Socket.newState (SocketState.mk (some ())) ()
      "readb 0x10\n" (fun _ s => Except.ok s.length) rfl).1).trans (by rfl)⟩

end QTest
